import Mathlib

/-!
Shallow embedding of the bounded/unbounded rotating net-log writer
(`net/log/file_net_log_observer.cc`).

The embedding models:

* `WriteQueue` — the mutex-guarded FIFO of encoded event strings with the
  hard byte cap and oldest-drop overflow policy (`AddEntryToQueue`,
  `SwapQueue`).
* `FileWriter` — the consumer-side state machine: current event-file
  number/size, the ring of chunk files, the final log file, and the
  `wrote_event_bytes_` flag.  Files are modelled by their contents; a file
  handle that is null (open failed / not open) is `Option.none`.
* The operations `Initialize`, `Flush` (drain loop with lazy rotation),
  `Stop`, `WritePolledDataToFile`, `RewindIfWroteEventBytes`,
  `StitchFinalLogFile`, and the constructor arithmetic of
  `CreateBoundedInternal` / `CreateUnbounded` (size_t arithmetic is
  modelled as natural numbers reduced mod 2^64 where the source multiplies).

Record sizes and byte counts are measured with `String.length`; all data
in the model is ASCII, so character counts coincide with the byte counts
used by the C++ (`size()`, `fwrite`, `fseek`).
-/

namespace NetLog

/-- `std::numeric_limits<size_t>::max()` for 64-bit `size_t`
(`FileNetLogObserver::kNoLimit`). -/
def kNoLimit : Nat := 2 ^ 64 - 1

/-- Number of queued events that triggers posting a `Flush` task
(`kNumWriteQueueEvents`). -/
def kNumWriteQueueEvents : Nat := 15

/-- The shared write queue: FIFO of encoded events (head = oldest), the
byte counter `memory_`, and the cap `memory_max_`. -/
structure WriteQueue where
  queue : List String
  memory : Nat
  memoryMax : Nat
deriving DecidableEq

/-- `WriteQueue::WriteQueue(memory_max)`: empty queue, zero byte counter. -/
def WriteQueue.init (memoryMax : Nat) : WriteQueue :=
  ⟨[], 0, memoryMax⟩

/-- Total size of the records held in a queue. -/
def sumLen (q : List String) : Nat := (q.map String.length).sum

/-- The overflow loop of `AddEntryToQueue`:
`while (memory_ > memory_max_ && !queue_.empty()) pop front`. -/
def dropOldestWhileOver (memoryMax : Nat) : Nat → List String → Nat × List String
  | memory, [] => (memory, [])
  | memory, e :: rest =>
    if memoryMax < memory then dropOldestWhileOver memoryMax (memory - e.length) rest
    else (memory, e :: rest)

/-- `WriteQueue::AddEntryToQueue`: add the record's size to `memory_`,
push the record at the back, run the overflow loop, return the resulting
queue length together with the new queue state. -/
def AddEntryToQueue (wq : WriteQueue) (event : String) : Nat × WriteQueue :=
  let m := wq.memory + event.length
  let q := wq.queue ++ [event]
  let r := dropOldestWhileOver wq.memoryMax m q
  (r.2.length, ⟨r.2, r.1, wq.memoryMax⟩)

/-- `WriteQueue::SwapQueue`: hand the whole queue to the caller's empty
local queue and reset `memory_` to 0. -/
def SwapQueue (wq : WriteQueue) : List String × WriteQueue :=
  (wq.queue, ⟨[], 0, wq.memoryMax⟩)

/-- `FileNetLogObserver::OnAddEntry`: `encoded` is the JSON encoder's
result (`none` when encoding failed).  On success the event is pushed and
a `Flush` task is posted iff the returned queue length equals
`kNumWriteQueueEvents`.  Returns (new queue state, whether a task was
posted). -/
def OnAddEntry (wq : WriteQueue) (encoded : Option String) : WriteQueue × Bool :=
  match encoded with
  | none => (wq, false)
  | some json =>
    let r := AddEntryToQueue wq json
    (r.2, r.1 == kNumWriteQueueEvents)

/-- `FileNetLogObserver::CreateBoundedInternal` configuration arithmetic:
returns `(max_event_file_size, write-queue memory_max)`.  The queue cap is
`max_total_size * 2` computed in `size_t`, i.e. reduced mod `2 ^ 64`. -/
def CreateBoundedInternal (maxTotalSize totalNumEventFiles : Nat) : Nat × Nat :=
  let maxEventFileSize :=
    if maxTotalSize = kNoLimit then kNoLimit else maxTotalSize / totalNumEventFiles
  let queueMemoryMax := maxTotalSize * 2 % 2 ^ 64
  (maxEventFileSize, queueMemoryMax)

/-- `FileNetLogObserver::CreateUnbounded` = `CreateBounded(path, kNoLimit)`
= `CreateBoundedInternal(path, kNoLimit, 10)`. -/
def CreateUnbounded : Nat × Nat := CreateBoundedInternal kNoLimit 10

/-- The helper `WriteToFile(file, data1, data2, data3)`: a null handle
writes nothing and reports 0 bytes written; otherwise the three pieces are
appended and their total size is returned. -/
def WriteToFile (file : Option String) (d1 d2 d3 : String) : Option String × Nat :=
  match file with
  | none => (none, 0)
  | some c => (some (c ++ d1 ++ d2 ++ d3), d1.length + d2.length + d3.length)

/-- `FileNetLogObserver::FileWriter` state.  File handles/contents:
`none` models a null handle (open failed) or an absent file;
`eventFiles i` is the content of `event_file_<i>.json` on disk;
`currentEventHandle` is the index the open chunk handle points at. -/
structure FileWriter where
  finalLogFile : Option String
  constantsFile : Option String
  closingFile : Option String
  eventFiles : Nat → Option String
  currentEventHandle : Option Nat
  currentEventFileSize : Nat
  totalNumEventFiles : Nat
  currentEventFileNumber : Nat
  maxEventFileSize : Nat
  wroteEventBytes : Bool

/-- The `FileWriter` constructor: file number 0 (no chunk yet), nothing
open, no event bytes written. -/
def initFileWriter (maxEventFileSize totalNumEventFiles : Nat) : FileWriter :=
  { finalLogFile := none
    constantsFile := none
    closingFile := none
    eventFiles := fun _ => none
    currentEventHandle := none
    currentEventFileSize := 0
    totalNumEventFiles := totalNumEventFiles
    currentEventFileNumber := 0
    maxEventFileSize := maxEventFileSize
    wroteEventBytes := false }

/-- `FileWriter::IsUnbounded`: no per-chunk size limit is enforced. -/
def IsUnbounded (s : FileWriter) : Bool := s.maxEventFileSize == kNoLimit

/-- `FileWriter::IsBounded`. -/
def IsBounded (s : FileWriter) : Bool := !IsUnbounded s

/-- `FileWriter::FileNumberToIndex`: `(file_number - 1) % total_num_event_files_`
(file numbers start at 1). -/
def FileNumberToIndex (totalNumEventFiles fileNumber : Nat) : Nat :=
  (fileNumber - 1) % totalNumEventFiles

/-- `FileWriter::IncrementCurrentEventFile`: bump the monotonic file
number, open (truncating) the chunk file at the wrapped index, reset the
per-chunk byte count. -/
def IncrementCurrentEventFile (s : FileWriter) : FileWriter :=
  let fn := s.currentEventFileNumber + 1
  let idx := FileNumberToIndex s.totalNumEventFiles fn
  { s with currentEventFileNumber := fn
           currentEventHandle := some idx
           eventFiles := Function.update s.eventFiles idx (some "")
           currentEventFileSize := 0 }

/-- Writing through the current chunk handle: a null handle writes
nothing (0 bytes); otherwise the two pieces are appended to the chunk file
the handle points at. -/
def writeEventToCurrentFile (s : FileWriter) (d1 d2 : String) : FileWriter × Nat :=
  match s.currentEventHandle with
  | none => (s, 0)
  | some i =>
    ({ s with eventFiles :=
        Function.update s.eventFiles i (some (((s.eventFiles i).getD "") ++ d1 ++ d2)) },
     d1.length + d2.length)

/-- One iteration of the drain loop in `FileWriter::Flush` for the front
record `ev`: in bounded mode rotate lazily (`file_number == 0` or the
chunk is at/over the soft limit), then write `ev` followed by ",\n";
in unbounded mode write directly to the final log file.  The byte count of
the chunk and the `wrote_event_bytes_` flag are updated from the number of
bytes actually written. -/
def flushOne (s : FileWriter) (ev : String) : FileWriter :=
  if IsBounded s then
    let s1 :=
      if s.currentEventFileNumber = 0 ∨ s.maxEventFileSize ≤ s.currentEventFileSize
      then IncrementCurrentEventFile s
      else s
    let r := writeEventToCurrentFile s1 ev ",\n"
    { r.1 with wroteEventBytes := r.1.wroteEventBytes || decide (0 < r.2)
               currentEventFileSize := r.1.currentEventFileSize + r.2 }
  else
    let r := WriteToFile s.finalLogFile ev ",\n" ""
    { s with finalLogFile := r.1
             wroteEventBytes := s.wroteEventBytes || decide (0 < r.2) }

/-- `FileWriter::Flush`: swap the shared queue into a local queue and
drain it front to back. -/
def Flush (s : FileWriter) (wq : WriteQueue) : FileWriter × WriteQueue :=
  let r := SwapQueue wq
  (r.1.foldl flushOne s, r.2)

/-- `FileWriter::WriteConstantsToFile`: the prologue
`{"constants":<json>,\n"events": [\n` (with literal braces). -/
def WriteConstantsToFile (constantsJson : String) (file : Option String) : Option String :=
  (WriteToFile file "\x7b\"constants\":" constantsJson ",\n\"events\": [\n").1

/-- The placeholder left in the final file by `CreateInprogressDirectory`. -/
def kInprogressPlaceholder : String :=
  "Log data is being written to the XXX.inprogress directory"

/-- `FileWriter::Initialize(constants)`: open the final file (truncate);
bounded mode writes the placeholder into it and the prologue into a fresh
`constants.json`; unbounded mode writes the prologue into the final file. -/
def Initialize (s : FileWriter) (constantsJson : String) : FileWriter :=
  let s1 := { s with finalLogFile := some "" }
  if IsBounded s1 then
    { s1 with finalLogFile := (WriteToFile s1.finalLogFile kInprogressPlaceholder "" "").1
              constantsFile := WriteConstantsToFile constantsJson (some "") }
  else
    { s1 with finalLogFile := WriteConstantsToFile constantsJson s1.finalLogFile }

/-- `FileWriter::WritePolledDataToFile`: close the events array with "]";
if polled data is present (`polledJson = some j`, where `j` is the
encoder's output, "" when encoding failed) and non-empty, write
`,\n"polledData": <json>\n`; close the object with a brace and newline. -/
def WritePolledDataToFile (polledJson : Option String) (file : Option String) :
    Option String :=
  let f1 := (WriteToFile file "]" "" "").1
  let f2 :=
    match polledJson with
    | some json =>
      if json = "" then f1 else (WriteToFile f1 ",\n\"polledData\": " json "\n").1
    | none => f1
  (WriteToFile f2 "\x7d\n" "" "").1

/-- The optional polled-data fragment of the epilogue, as a string. -/
def polledPart (polledJson : Option String) : String :=
  match polledJson with
  | some json => if json = "" then "" else ",\n\"polledData\": " ++ (json ++ "\n")
  | none => ""

/-- `fseek(file, -2, SEEK_END)` followed by sequential overwriting
appends: drop the final two (ASCII) characters. -/
def seekBack2 (c : String) : String :=
  String.mk (c.data.take (c.data.length - 2))

/-- `FileWriter::RewindIfWroteEventBytes`: only with a non-null handle and
`wrote_event_bytes_` set is the trailing ",\n" seeked over. -/
def RewindIfWroteEventBytes (wroteEventBytes : Bool) (file : Option String) :
    Option String :=
  match file with
  | some c => if wroteEventBytes then some (seekBack2 c) else some c
  | none => none

/-- The file numbers visited by the stitching loop, in loop order:
`end = file_number + 1`, `begin = 1` if `file_number <= N` else `end - N`,
then `for (fn = begin; fn < end; ++fn)`. -/
def stitchSourceNumbers (fileNumber totalNumEventFiles : Nat) : List Nat :=
  let lastNumber := fileNumber + 1
  let firstNumber :=
    if fileNumber ≤ totalNumEventFiles then 1 else lastNumber - totalNumEventFiles
  List.range' firstNumber (lastNumber - firstNumber)

/-- `AppendToFileThenDelete(source, dest)`: a missing source is a no-op;
otherwise its whole content is appended to `dest` (null dest loses the
bytes) and the source is deleted.  Returns (new source, new dest). -/
def AppendToFileThenDelete (source dest : Option String) :
    Option String × Option String :=
  match source with
  | none => (none, dest)
  | some c => (none, (WriteToFile dest c "" "").1)

/-- `FileWriter::StitchFinalLogFile`: close the chunk handle, reopen the
final file truncating it, append `constants.json`, append the live chunk
files for the window `stitchSourceNumbers` (each at its wrapped index),
rewind over the trailing ",\n" if any event bytes were written, append
`end_netlog.json`, and delete the whole in-progress directory. -/
def StitchFinalLogFile (s : FileWriter) : FileWriter :=
  let s0 := { s with currentEventHandle := none }
  let r1 := AppendToFileThenDelete s0.constantsFile (some "")
  let r2 := (stitchSourceNumbers s0.currentEventFileNumber s0.totalNumEventFiles).foldl
    (fun acc fnum =>
      let i := FileNumberToIndex s0.totalNumEventFiles fnum
      let r := AppendToFileThenDelete (acc.1 i) acc.2
      (Function.update acc.1 i r.1, r.2))
    (s0.eventFiles, r1.2)
  let f3 := RewindIfWroteEventBytes s0.wroteEventBytes r2.2
  let r4 := AppendToFileThenDelete s0.closingFile f3
  { s0 with finalLogFile := r4.2
            constantsFile := none
            closingFile := none
            eventFiles := fun _ => none }

/-- `FileWriter::Stop(polled_data)`: bounded mode writes the epilogue to a
fresh `end_netlog.json` and stitches; unbounded mode rewinds over the
trailing ",\n" (if events were written) and writes the epilogue to the
final file. -/
def Stop (s : FileWriter) (polledJson : Option String) : FileWriter :=
  if IsBounded s then
    StitchFinalLogFile { s with closingFile := WritePolledDataToFile polledJson (some "") }
  else
    let f := RewindIfWroteEventBytes s.wroteEventBytes s.finalLogFile
    { s with finalLogFile := WritePolledDataToFile polledJson f }

/-- `FileWriter::FlushThenStop`. -/
def FlushThenStop (s : FileWriter) (wq : WriteQueue) (polledJson : Option String) :
    FileWriter × WriteQueue :=
  let r := Flush s wq
  (Stop r.1 polledJson, r.2)

/-- The queue state reached from a fresh `WriteQueue` by a sequence of
`AddEntryToQueue` calls. -/
def runAdds (memoryMax : Nat) (events : List String) : WriteQueue :=
  events.foldl (fun wq e => (AddEntryToQueue wq e).2) (WriteQueue.init memoryMax)

/-- Pre-stitch state of the wrapped-ring scenario: N = 3 chunk files,
current file number 7, the surviving chunks on disk holding the events of
file numbers 5 (index 1), 6 (index 2) and 7 (index 0). -/
def stitchExampleState : FileWriter :=
  { initFileWriter 10 3 with
      currentEventFileNumber := 7
      currentEventHandle := some 0
      eventFiles := fun i =>
        if i = 0 then some "g7,\n"
        else if i = 1 then some "e5,\n"
        else if i = 2 then some "f6,\n"
        else none
      constantsFile := some "K["
      closingFile := some "]\x7d"
      wroteEventBytes := true
      finalLogFile := some kInprogressPlaceholder }

end NetLog

namespace NetLog

theorem sapp_assoc (a b c : String) : a ++ b ++ c = a ++ (b ++ c) := by
  apply String.ext
  simp [String.data_append, List.append_assoc]

theorem sapp_empty (a : String) : a ++ "" = a := by
  apply String.ext
  simp [String.data_append]

theorem empty_sapp (a : String) : "" ++ a = a := by
  apply String.ext
  simp [String.data_append]

theorem sumLen_nil : sumLen [] = 0 := rfl

theorem sumLen_cons (e : String) (q : List String) :
    sumLen (e :: q) = e.length + sumLen q := by
  simp [sumLen]

theorem sumLen_append (a b : List String) : sumLen (a ++ b) = sumLen a + sumLen b := by
  simp [sumLen]

theorem dropOldest_memAcc (memoryMax : Nat) :
    ∀ (q : List String) (m : Nat), m = sumLen q →
      (dropOldestWhileOver memoryMax m q).1 = sumLen (dropOldestWhileOver memoryMax m q).2 := by
  intro q
  induction q with
  | nil => intro m hm; simpa [dropOldestWhileOver] using hm
  | cons e rest ih =>
    intro m hm
    rw [sumLen_cons] at hm
    rw [dropOldestWhileOver]
    split
    · exact ih _ (by omega)
    · simpa [sumLen_cons] using hm

theorem dropOldest_le_or_nil (memoryMax : Nat) :
    ∀ (q : List String) (m : Nat),
      (dropOldestWhileOver memoryMax m q).1 ≤ memoryMax ∨
      (dropOldestWhileOver memoryMax m q).2 = [] := by
  intro q
  induction q with
  | nil => intro m; right; rfl
  | cons e rest ih =>
    intro m
    rw [dropOldestWhileOver]
    split
    · exact ih _
    · left
      show m ≤ memoryMax
      omega

theorem dropOldest_suffix (memoryMax : Nat) :
    ∀ (q : List String) (m : Nat),
      ((dropOldestWhileOver memoryMax m q).2).IsSuffix q := by
  intro q
  induction q with
  | nil => intro m; exact List.suffix_refl _
  | cons e rest ih =>
    intro m
    rw [dropOldestWhileOver]
    split
    · exact (ih _).trans (List.suffix_cons e rest)
    · exact List.suffix_refl _

theorem dropOldest_overLast (memoryMax : Nat) (r : String) (hr : memoryMax < r.length) :
    ∀ (q0 : List String) (m : Nat), m = sumLen (q0 ++ [r]) →
      dropOldestWhileOver memoryMax m (q0 ++ [r]) = (0, []) := by
  intro q0
  induction q0 with
  | nil =>
    intro m hm
    have hm' : m = r.length := by
      rw [List.nil_append, sumLen_cons, sumLen_nil] at hm
      omega
    subst hm'
    rw [List.nil_append, dropOldestWhileOver, if_pos hr, dropOldestWhileOver,
      Nat.sub_self]
  | cons e rest ih =>
    intro m hm
    rw [List.cons_append, sumLen_cons] at hm
    have h1 : r.length ≤ sumLen (rest ++ [r]) := by
      rw [sumLen_append, sumLen_cons, sumLen_nil]
      omega
    rw [List.cons_append, dropOldestWhileOver, if_pos (by omega)]
    exact ih (m - e.length) (by omega)

theorem AddEntry_memory_eq (wq : WriteQueue) (e : String)
    (h : wq.memory = sumLen wq.queue) :
    (AddEntryToQueue wq e).2.memory = sumLen (AddEntryToQueue wq e).2.queue := by
  exact dropOldest_memAcc wq.memoryMax (wq.queue ++ [e]) (wq.memory + e.length)
    (by rw [h, sumLen_append, sumLen_cons, sumLen_nil]; omega)

theorem AddEntry_memory_le (wq : WriteQueue) (e : String)
    (h : wq.memory = sumLen wq.queue) :
    (AddEntryToQueue wq e).2.memory ≤ wq.memoryMax := by
  rcases dropOldest_le_or_nil wq.memoryMax (wq.queue ++ [e]) (wq.memory + e.length)
    with h1 | h1
  · exact h1
  · have h2 := AddEntry_memory_eq wq e h
    have h3 : (AddEntryToQueue wq e).2.queue = [] := h1
    rw [h2, h3]
    exact Nat.zero_le _

theorem foldAdd_inv : ∀ (events : List String) (wq : WriteQueue),
    wq.memory = sumLen wq.queue → wq.memory ≤ wq.memoryMax →
    ((events.foldl (fun w e => (AddEntryToQueue w e).2) wq).memory =
        sumLen (events.foldl (fun w e => (AddEntryToQueue w e).2) wq).queue ∧
      (events.foldl (fun w e => (AddEntryToQueue w e).2) wq).memoryMax = wq.memoryMax ∧
      (events.foldl (fun w e => (AddEntryToQueue w e).2) wq).memory ≤ wq.memoryMax) := by
  intro events
  induction events with
  | nil => intro wq h1 h2; exact ⟨h1, rfl, h2⟩
  | cons e rest ih =>
    intro wq h1 h2
    rw [List.foldl_cons]
    have k1 := AddEntry_memory_eq wq e h1
    have k2 := AddEntry_memory_le wq e h1
    have k3 := ih ((AddEntryToQueue wq e).2) k1 k2
    exact ⟨k3.1, k3.2.1, k3.2.2⟩

theorem runAdds_spec (memoryMax : Nat) (events : List String) :
    (runAdds memoryMax events).memory = sumLen (runAdds memoryMax events).queue ∧
    (runAdds memoryMax events).memoryMax = memoryMax ∧
    (runAdds memoryMax events).memory ≤ memoryMax :=
  foldAdd_inv events (WriteQueue.init memoryMax) rfl (Nat.zero_le _)

/-- Claim C1: on every write queue reached from construction by a sequence
of `AddEntryToQueue` calls, the byte count after each call is at most
`memory_max`; the cap is restored by dropping records from the front of
the FIFO (the surviving queue is a suffix of the queue with the new record
at the back); and pushing a single record larger than `memory_max` leaves
the queue empty with the call returning length 0. -/
theorem claim_C1 (memoryMax : Nat) (events : List String) (e : String) :
    sumLen (runAdds memoryMax events).queue ≤ memoryMax ∧
    (runAdds memoryMax events).memory ≤ memoryMax ∧
    ((AddEntryToQueue (runAdds memoryMax events) e).2.queue).IsSuffix
      ((runAdds memoryMax events).queue ++ [e]) ∧
    (memoryMax < e.length →
      (AddEntryToQueue (runAdds memoryMax events) e).2.queue = [] ∧
      (AddEntryToQueue (runAdds memoryMax events) e).1 = 0) := by
  obtain ⟨h1, h2, h3⟩ := runAdds_spec memoryMax events
  refine ⟨h1 ▸ h3, h3, ?_, ?_⟩
  · exact dropOldest_suffix _ _ _
  · intro hx
    have hx' : (runAdds memoryMax events).memoryMax < e.length := by
      rw [h2]
      exact hx
    have hm : (runAdds memoryMax events).memory + e.length =
        sumLen ((runAdds memoryMax events).queue ++ [e]) := by
      rw [h1, sumLen_append, sumLen_cons, sumLen_nil]
      omega
    have hd := dropOldest_overLast (runAdds memoryMax events).memoryMax e hx'
      (runAdds memoryMax events).queue
      ((runAdds memoryMax events).memory + e.length) hm
    constructor
    · show (dropOldestWhileOver _ _ _).2 = []
      rw [hd]
    · show (dropOldestWhileOver _ _ _).2.length = 0
      rw [hd]
      rfl

theorem claim_C1_witness :
    sumLen (runAdds 5 ["ab"]).queue ≤ 5 ∧
    (AddEntryToQueue (runAdds 5 ["ab"]) "abcdefgh").2.queue = [] ∧
    (AddEntryToQueue (runAdds 5 ["ab"]) "abcdefgh").1 = 0 := by
  have h := claim_C1 5 ["ab"] "abcdefgh"
  exact ⟨h.1, (h.2.2.2 (by decide)).1, (h.2.2.2 (by decide)).2⟩

end NetLog

namespace NetLog

/-- Claim C10 as stated is false: pushing a zero-length record gives
`memory_ = 0` with a non-empty queue, so the counter is not zero exactly
when the queue is empty. -/
theorem claim_C10_counterexample :
    (AddEntryToQueue (WriteQueue.init 10) "").2.memory = 0 ∧
    (AddEntryToQueue (WriteQueue.init 10) "").2.queue ≠ [] := by decide

/-- Claim C10, amended: after construction and after every
`AddEntryToQueue` and `SwapQueue` call the counter `memory_` equals the
sum of the sizes of the held records (so it never underflows); hence it is
zero whenever the queue is empty, and zero only when every held record has
size zero (with the non-empty records the JSON encoder produces, zero
exactly when the queue is empty). -/
theorem claim_C10 (memoryMax : Nat) (wq : WriteQueue) (e : String) :
    (WriteQueue.init memoryMax).memory = sumLen (WriteQueue.init memoryMax).queue ∧
    (wq.memory = sumLen wq.queue →
      (AddEntryToQueue wq e).2.memory = sumLen (AddEntryToQueue wq e).2.queue) ∧
    (SwapQueue wq).2.memory = sumLen (SwapQueue wq).2.queue ∧
    (wq.memory = sumLen wq.queue → wq.queue = [] → wq.memory = 0) ∧
    (wq.memory = sumLen wq.queue → wq.memory = 0 → ∀ r ∈ wq.queue, r.length = 0) := by
  refine ⟨rfl, AddEntry_memory_eq wq e, rfl, ?_, ?_⟩
  · intro hm hq
    rw [hm, hq]
    rfl
  · intro hm h0 r hr
    have hs : sumLen wq.queue = 0 := by omega
    rw [sumLen] at hs
    exact List.sum_eq_zero_iff.mp hs r.length (List.mem_map_of_mem String.length hr)

theorem claim_C10_witness :
    (AddEntryToQueue ⟨["ab"], 2, 7⟩ "xyz").2.memory =
      sumLen (AddEntryToQueue ⟨["ab"], 2, 7⟩ "xyz").2.queue ∧
    (SwapQueue ⟨["ab"], 2, 7⟩).2.memory = sumLen (SwapQueue ⟨["ab"], 2, 7⟩).2.queue := by
  have h := claim_C10 7 ⟨["ab"], 2, 7⟩ "xyz"
  exact ⟨h.2.1 (by decide), h.2.2.1⟩

/-- Claim C6: an event whose encoding fails pushes nothing and posts
nothing; on success the event is pushed and a `Flush` task is posted if
and only if the length returned by the push equals the threshold
`kNumWriteQueueEvents = 15`. -/
theorem claim_C6 (wq : WriteQueue) (json : String) :
    OnAddEntry wq none = (wq, false) ∧
    (OnAddEntry wq (some json)).1 = (AddEntryToQueue wq json).2 ∧
    ((OnAddEntry wq (some json)).2 = true ↔
      (AddEntryToQueue wq json).1 = kNumWriteQueueEvents) ∧
    kNumWriteQueueEvents = 15 := by
  refine ⟨rfl, rfl, ?_, rfl⟩
  simp [OnAddEntry]

/-- Claim C5 as stated is false: in unbounded mode the write queue's byte
cap is the size_t product `kNoLimit * 2`, which wraps to `kNoLimit - 1`,
not the sentinel `kNoLimit`. -/
theorem claim_C5_counterexample :
    (CreateBoundedInternal kNoLimit 10).2 ≠ kNoLimit ∧
    (CreateBoundedInternal kNoLimit 10).2 = kNoLimit - 1 := by decide

/-- Claim C5, amended: if `max_total_size` is not the sentinel, then
`max_chunk_bytes = max_total_size / N` and the queue cap is
`max_total_size * 2` reduced mod `2 ^ 64` (equal to the plain product
whenever it fits in size_t); if it is the sentinel, `max_chunk_bytes` is
the sentinel and the queue cap is `kNoLimit - 1` — one less than the
sentinel, because the size_t product `kNoLimit * 2` wraps — which is still
effectively unbounded. -/
theorem claim_C5 (maxTotalSize totalNumEventFiles : Nat) :
    (maxTotalSize ≠ kNoLimit →
      (CreateBoundedInternal maxTotalSize totalNumEventFiles).1 =
        maxTotalSize / totalNumEventFiles ∧
      (CreateBoundedInternal maxTotalSize totalNumEventFiles).2 =
        maxTotalSize * 2 % 2 ^ 64) ∧
    (maxTotalSize = kNoLimit →
      (CreateBoundedInternal maxTotalSize totalNumEventFiles).1 = kNoLimit ∧
      (CreateBoundedInternal maxTotalSize totalNumEventFiles).2 = kNoLimit - 1) ∧
    CreateUnbounded = (kNoLimit, kNoLimit - 1) := by
  refine ⟨?_, ?_, by decide⟩
  · intro h
    exact ⟨by simp [CreateBoundedInternal, h], rfl⟩
  · intro h
    subst h
    have hc : kNoLimit * 2 % 2 ^ 64 = kNoLimit - 1 := by decide
    exact ⟨by simp [CreateBoundedInternal], hc⟩

theorem claim_C5_witness :
    (CreateBoundedInternal 100 10).1 = 10 ∧
    (CreateBoundedInternal 100 10).2 = 200 := by
  have h := (claim_C5 100 10).1 (by decide)
  exact ⟨h.1.trans (by decide), h.2.trans (by decide)⟩

/-- Claim C3: `FileNumberToIndex fn = (fn - 1) mod N`; the file number
starts at 0 (no chunk yet) and each rotation increments it by exactly 1,
so in the model it only ever increases and never wraps; and for
`fn ≥ 1`, `N ≥ 1` the identity `fn = (fn-1)/N * N + (index + 1)` holds. -/
theorem claim_C3 (fileNumber totalNumEventFiles mx n : Nat) (s : FileWriter)
    (h1 : 1 ≤ fileNumber) (_h2 : 1 ≤ totalNumEventFiles) :
    FileNumberToIndex totalNumEventFiles fileNumber =
      (fileNumber - 1) % totalNumEventFiles ∧
    fileNumber = (fileNumber - 1) / totalNumEventFiles * totalNumEventFiles +
      (FileNumberToIndex totalNumEventFiles fileNumber + 1) ∧
    (IncrementCurrentEventFile s).currentEventFileNumber =
      s.currentEventFileNumber + 1 ∧
    s.currentEventFileNumber < (IncrementCurrentEventFile s).currentEventFileNumber ∧
    (initFileWriter mx n).currentEventFileNumber = 0 := by
  refine ⟨rfl, ?_, rfl, ?_, rfl⟩
  · have key := Nat.div_add_mod' (fileNumber - 1) totalNumEventFiles
    show fileNumber = (fileNumber - 1) / totalNumEventFiles * totalNumEventFiles +
      ((fileNumber - 1) % totalNumEventFiles + 1)
    omega
  · show s.currentEventFileNumber < s.currentEventFileNumber + 1
    omega

theorem claim_C3_witness :
    FileNumberToIndex 3 7 = (7 - 1) % 3 ∧
    7 = (7 - 1) / 3 * 3 + (FileNumberToIndex 3 7 + 1) ∧
    (IncrementCurrentEventFile (initFileWriter 10 3)).currentEventFileNumber = 1 := by
  have h := claim_C3 7 3 10 3 (initFileWriter 10 3) (by decide) (by decide)
  exact ⟨h.1, h.2.1, h.2.2.1⟩

/-- Claim C2: the stitching window is exactly the file numbers in
`[begin, end)` with `end = file_number + 1` and `begin = 1` if
`file_number ≤ N` else `end - N`, visited in increasing order, each mapped
to chunk index `(fn - 1) mod N`; for `N = 3`, `file_number = 7` the window
is `[5, 8)` with indices `1, 2, 0`, and stitching a wrapped ring in that
state concatenates the surviving chunks in exactly that order. -/
theorem claim_C2 (fileNumber totalNumEventFiles : Nat) :
    (∀ k, k ∈ stitchSourceNumbers fileNumber totalNumEventFiles ↔
      (if fileNumber ≤ totalNumEventFiles then 1
        else fileNumber + 1 - totalNumEventFiles) ≤ k ∧ k < fileNumber + 1) ∧
    List.Pairwise (· < ·) (stitchSourceNumbers fileNumber totalNumEventFiles) ∧
    stitchSourceNumbers 7 3 = [5, 6, 7] ∧
    (stitchSourceNumbers 7 3).map (FileNumberToIndex 3) = [1, 2, 0] ∧
    (StitchFinalLogFile stitchExampleState).finalLogFile =
      some "K[e5,\nf6,\ng7]\x7d" := by
  refine ⟨?_, ?_, by decide, by decide, by decide⟩
  · intro k
    simp only [stitchSourceNumbers]
    rw [List.mem_range'_1]
    by_cases h : fileNumber ≤ totalNumEventFiles
    · omega
    · omega
  · exact List.pairwise_lt_range' _ _

end NetLog

namespace NetLog

theorem writeEvent_pres (s : FileWriter) (d1 d2 : String) :
    (writeEventToCurrentFile s d1 d2).1.maxEventFileSize = s.maxEventFileSize ∧
    (writeEventToCurrentFile s d1 d2).1.currentEventFileNumber = s.currentEventFileNumber ∧
    (writeEventToCurrentFile s d1 d2).1.totalNumEventFiles = s.totalNumEventFiles := by
  unfold writeEventToCurrentFile
  rcases hh : s.currentEventHandle with _ | i <;> simp [hh]

theorem flushOne_rotate (s : FileWriter) (ev : String) (hb : IsBounded s = true)
    (h : s.currentEventFileNumber = 0 ∨ s.maxEventFileSize ≤ s.currentEventFileSize) :
    flushOne s ev =
      { s with
          currentEventFileNumber := s.currentEventFileNumber + 1
          currentEventHandle :=
            some (FileNumberToIndex s.totalNumEventFiles (s.currentEventFileNumber + 1))
          eventFiles := Function.update s.eventFiles
            (FileNumberToIndex s.totalNumEventFiles (s.currentEventFileNumber + 1))
            (some ("" ++ ev ++ ",\n"))
          currentEventFileSize := 0 + (ev.length + (",\n").length)
          wroteEventBytes :=
            s.wroteEventBytes || decide (0 < ev.length + (",\n").length) } := by
  rw [flushOne, if_pos hb, if_pos h]
  simp [IncrementCurrentEventFile, writeEventToCurrentFile, Function.update_idem,
    Function.update_same]

theorem flushOne_norotate (s : FileWriter) (ev : String) (i : Nat) (c : String)
    (hb : IsBounded s = true)
    (h : ¬(s.currentEventFileNumber = 0 ∨ s.maxEventFileSize ≤ s.currentEventFileSize))
    (hh : s.currentEventHandle = some i) (hc : s.eventFiles i = some c) :
    flushOne s ev =
      { s with
          eventFiles := Function.update s.eventFiles i (some (c ++ ev ++ ",\n"))
          currentEventFileSize := s.currentEventFileSize + (ev.length + (",\n").length)
          wroteEventBytes :=
            s.wroteEventBytes || decide (0 < ev.length + (",\n").length) } := by
  rw [flushOne, if_pos hb, if_neg h]
  simp [writeEventToCurrentFile, hh, hc]

theorem flushOne_fn_rotate (s : FileWriter) (ev : String) (hb : IsBounded s = true)
    (h : s.currentEventFileNumber = 0 ∨ s.maxEventFileSize ≤ s.currentEventFileSize) :
    (flushOne s ev).currentEventFileNumber = s.currentEventFileNumber + 1 := by
  rw [flushOne_rotate s ev hb h]

theorem flushOne_size_rotate (s : FileWriter) (ev : String) (hb : IsBounded s = true)
    (h : s.currentEventFileNumber = 0 ∨ s.maxEventFileSize ≤ s.currentEventFileSize) :
    (flushOne s ev).currentEventFileSize = ev.length + 2 := by
  rw [flushOne_rotate s ev hb h]
  show 0 + (ev.length + (",\n").length) = ev.length + 2
  have hl : (",\n").length = 2 := rfl
  omega

theorem flushOne_max_eq (s : FileWriter) (ev : String) :
    (flushOne s ev).maxEventFileSize = s.maxEventFileSize := by
  rw [flushOne]
  split
  · split
    · exact ((writeEvent_pres _ _ _).1).trans rfl
    · exact (writeEvent_pres _ _ _).1
  · rcases hf : s.finalLogFile with _ | c <;> simp [WriteToFile]

theorem IsBounded_flushOne (s : FileWriter) (ev : String) :
    IsBounded (flushOne s ev) = IsBounded s := by
  unfold IsBounded IsUnbounded
  rw [flushOne_max_eq]

/-- Claim C4: in bounded mode, for a record drained by Flush, rotation to
a new chunk happens before writing that record iff `file_number = 0` or
`current_chunk_bytes ≥ max_chunk_bytes`; the record is then written in
full to the single (possibly fresh) current chunk, so the limit is soft: a
record crossing `max_chunk_bytes` lands entirely in one chunk and rotation
occurs only before the next record. -/
theorem claim_C4 (s : FileWriter) (ev ev2 : String) (hb : IsBounded s = true) :
    ((s.currentEventFileNumber = 0 ∨ s.maxEventFileSize ≤ s.currentEventFileSize) →
      (flushOne s ev).currentEventFileNumber = s.currentEventFileNumber + 1 ∧
      (flushOne s ev).eventFiles
          (FileNumberToIndex s.totalNumEventFiles (s.currentEventFileNumber + 1)) =
        some (ev ++ ",\n") ∧
      (flushOne s ev).currentEventFileSize = ev.length + 2 ∧
      (∀ j, j ≠ FileNumberToIndex s.totalNumEventFiles (s.currentEventFileNumber + 1) →
        (flushOne s ev).eventFiles j = s.eventFiles j)) ∧
    (¬(s.currentEventFileNumber = 0 ∨ s.maxEventFileSize ≤ s.currentEventFileSize) →
      (flushOne s ev).currentEventFileNumber = s.currentEventFileNumber ∧
      (∀ i c, s.currentEventHandle = some i → s.eventFiles i = some c →
        (flushOne s ev).eventFiles i = some (c ++ ev ++ ",\n") ∧
        (flushOne s ev).currentEventFileSize =
          s.currentEventFileSize + (ev.length + 2))) ∧
    ((s.currentEventFileNumber = 0 ∨ s.maxEventFileSize ≤ s.currentEventFileSize) →
      s.maxEventFileSize ≤ ev.length + 2 →
      (flushOne (flushOne s ev) ev2).currentEventFileNumber =
        s.currentEventFileNumber + 2) := by
  have hl : (",\n").length = 2 := rfl
  refine ⟨?_, ?_, ?_⟩
  · intro h
    refine ⟨flushOne_fn_rotate s ev hb h, ?_, flushOne_size_rotate s ev hb h, ?_⟩
    · rw [flushOne_rotate s ev hb h]
      show Function.update _ _ _ _ = _
      rw [Function.update_same, empty_sapp]
    · intro j hj
      rw [flushOne_rotate s ev hb h]
      show Function.update _ _ _ _ = _
      rw [Function.update_noteq hj]
  · intro h
    constructor
    · rw [flushOne, if_pos hb, if_neg h]
      rcases hh : s.currentEventHandle with _ | i <;>
        simp [writeEventToCurrentFile, hh]
    · intro i c hh hc
      rw [flushOne_norotate s ev i c hb h hh hc]
      constructor
      · show Function.update _ _ _ _ = _
        rw [Function.update_same]
      · show s.currentEventFileSize + (ev.length + (",\n").length) =
          s.currentEventFileSize + (ev.length + 2)
        omega
  · intro h h2
    have hb2 : IsBounded (flushOne s ev) = true := (IsBounded_flushOne s ev).trans hb
    have hrot2 : (flushOne s ev).currentEventFileNumber = 0 ∨
        (flushOne s ev).maxEventFileSize ≤ (flushOne s ev).currentEventFileSize := by
      right
      rw [flushOne_max_eq, flushOne_size_rotate s ev hb h]
      omega
    rw [flushOne_fn_rotate (flushOne s ev) ev2 hb2 hrot2,
      flushOne_fn_rotate s ev hb h]

theorem claim_C4_witness :
    (flushOne (initFileWriter 5 3) "0123456789").currentEventFileNumber = 1 ∧
    (flushOne (initFileWriter 5 3) "0123456789").eventFiles
        (FileNumberToIndex 3 1) = some ("0123456789" ++ ",\n") ∧
    (flushOne (flushOne (initFileWriter 5 3) "0123456789") "e2").currentEventFileNumber
      = 2 := by
  have h := claim_C4 (initFileWriter 5 3) "0123456789" "e2" (by decide)
  exact ⟨(h.1 (Or.inl rfl)).1, (h.1 (Or.inl rfl)).2.1,
    h.2.2 (Or.inl rfl) (by decide)⟩

end NetLog

namespace NetLog

theorem writePolled_none (p : Option String) : WritePolledDataToFile p none = none := by
  rcases p with _ | j
  · rfl
  · unfold WritePolledDataToFile WriteToFile
    by_cases hj : j = "" <;> simp [hj]

theorem data_empty : ("" : String).data = [] := rfl

theorem writePolled_some (p : Option String) (base : String) :
    WritePolledDataToFile p (some base) =
      some (base ++ ("]" ++ (polledPart p ++ "\x7d\n"))) := by
  rcases p with _ | j
  · simp only [WritePolledDataToFile, WriteToFile, polledPart, Option.some.injEq]
    apply String.ext
    simp only [String.data_append, List.append_assoc, List.append_nil, List.nil_append,
      data_empty]
  · by_cases hj : j = ""
    · subst hj
      simp only [WritePolledDataToFile, WriteToFile, polledPart, eq_self_iff_true,
        ite_true, Option.some.injEq]
      apply String.ext
      simp only [String.data_append, List.append_assoc, List.append_nil, List.nil_append,
        data_empty]
    · simp only [WritePolledDataToFile, WriteToFile, polledPart, if_neg hj,
        Option.some.injEq]
      apply String.ext
      simp only [String.data_append, List.append_assoc, List.append_nil, List.nil_append,
        data_empty]

theorem rewind_false (f : Option String) : RewindIfWroteEventBytes false f = f := by
  cases f <;> rfl

/-- Claim C7: the epilogue written by `WritePolledDataToFile` is exactly
the byte "]", then — iff polled data is present and encodes to a
non-empty JSON string — the text `,\n"polledData": ` followed by that
JSON and a newline, then a closing brace and newline; with polled data
absent (or empty) nothing but `]` and the closing brace is appended, so no
`polledData` key appears. -/
theorem claim_C7 (base : String) (polledJson : Option String) :
    WritePolledDataToFile polledJson (some base) =
      some (base ++ ("]" ++ (polledPart polledJson ++ "\x7d\n"))) ∧
    WritePolledDataToFile none (some base) = some (base ++ ("]" ++ "\x7d\n")) ∧
    WritePolledDataToFile (some "") (some base) = some (base ++ ("]" ++ "\x7d\n")) ∧
    polledPart none = "" ∧
    (∀ j, polledPart (some j) =
      if j = "" then "" else ",\n\"polledData\": " ++ (j ++ "\n")) := by
  refine ⟨writePolled_some polledJson base, ?_, ?_, rfl, fun j => rfl⟩
  · rw [writePolled_some none base]
    simp only [polledPart, empty_sapp]
  · rw [writePolled_some (some "") base]
    simp only [polledPart, eq_self_iff_true, ite_true, empty_sapp]

end NetLog

namespace NetLog

theorem IsBounded_setFinal (s : FileWriter) (f : Option String) :
    IsBounded { s with finalLogFile := f } = IsBounded s := rfl

theorem InitializeUnbounded_eq (s : FileWriter) (c : String)
    (h : IsBounded s = false) :
    Initialize s c =
      { s with finalLogFile := some ("" ++ "\x7b\"constants\":" ++ c ++ ",\n\"events\": [\n") } := by
  have hb : ¬ (IsBounded { s with finalLogFile := some ("" : String) } = true) := by
    rw [IsBounded_setFinal, h]
    simp
  simp only [Initialize]
  rw [if_neg hb]
  rfl

theorem InitializeBounded_eq (s : FileWriter) (c : String) (h : IsBounded s = true) :
    Initialize s c =
      { s with
          finalLogFile := some ("" ++ kInprogressPlaceholder ++ "" ++ "")
          constantsFile := some ("" ++ "\x7b\"constants\":" ++ c ++ ",\n\"events\": [\n") } := by
  have hb : IsBounded { s with finalLogFile := some ("" : String) } = true := h
  simp only [Initialize]
  rw [if_pos hb]
  rfl

theorem StopUnbounded_final (s : FileWriter) (p : Option String) (base : String)
    (h : IsBounded s = false) (hw : s.wroteEventBytes = false)
    (hf : s.finalLogFile = some base) :
    (Stop s p).finalLogFile = some (base ++ ("]" ++ (polledPart p ++ "\x7d\n"))) ∧
    (Stop s p).wroteEventBytes = false := by
  have hb : ¬ (IsBounded s = true) := by
    rw [h]
    simp
  simp only [Stop]
  rw [if_neg hb]
  constructor
  · show WritePolledDataToFile p (RewindIfWroteEventBytes s.wroteEventBytes s.finalLogFile)
      = _
    rw [hw, rewind_false, hf, writePolled_some]
  · exact hw

theorem stitchSourceNumbers_zero (totalNumEventFiles : Nat) :
    stitchSourceNumbers 0 totalNumEventFiles = [] := by
  simp [stitchSourceNumbers]

theorem StopBounded_zero (s : FileWriter) (p : Option String) (base : String)
    (h : IsBounded s = true) (hw : s.wroteEventBytes = false)
    (hfn : s.currentEventFileNumber = 0) (hc : s.constantsFile = some base) :
    (Stop s p).finalLogFile = some (base ++ ("]" ++ (polledPart p ++ "\x7d\n"))) ∧
    (Stop s p).wroteEventBytes = false := by
  have hstep : Stop s p =
      StitchFinalLogFile { s with closingFile := WritePolledDataToFile p (some "") } := by
    simp only [Stop]
    rw [if_pos h]
  rw [hstep]
  constructor
  · simp only [StitchFinalLogFile, hfn, hc, hw, stitchSourceNumbers_zero,
      List.foldl_nil, rewind_false, writePolled_some, AppendToFileThenDelete,
      WriteToFile, Option.some.injEq]
    apply String.ext
    simp only [String.data_append, List.append_assoc, List.append_nil, List.nil_append,
      data_empty]
  · exact hw

end NetLog

namespace NetLog

/-- Claim C8: in a run with zero events (so no event bytes were ever
written) followed by Stop — in either mode — the `wrote_event_bytes` flag
is false, no two-byte seek-back is performed (rewinding with a false flag
is the identity on the file), and the final file closes the events array
immediately after opening it, so the events array is empty. -/
theorem claim_C8 (c : String) (polledJson : Option String) (M N : Nat)
    (hM : M ≠ kNoLimit) :
    ((Stop (Initialize (initFileWriter kNoLimit 10) c) polledJson).wroteEventBytes = false ∧
      (Stop (Initialize (initFileWriter kNoLimit 10) c) polledJson).finalLogFile =
        some ("\x7b\"constants\":" ++ (c ++ (",\n\"events\": [\n" ++ ("]" ++ (polledPart polledJson ++ "\x7d\n")))))) ∧
    (∀ f, RewindIfWroteEventBytes false f = f) ∧
    ((Stop (Initialize (initFileWriter M N) c) polledJson).wroteEventBytes = false ∧
      (Stop (Initialize (initFileWriter M N) c) polledJson).finalLogFile =
        some ("\x7b\"constants\":" ++ (c ++ (",\n\"events\": [\n" ++ ("]" ++ (polledPart polledJson ++ "\x7d\n")))))) := by
  have hU : IsBounded (initFileWriter kNoLimit 10) = false := by decide
  have hB : IsBounded (initFileWriter M N) = true := by
    simp [IsBounded, IsUnbounded, initFileWriter, hM]
  refine ⟨?_, fun f => rewind_false f, ?_⟩
  · rw [InitializeUnbounded_eq _ _ hU]
    have hS := StopUnbounded_final
      { initFileWriter kNoLimit 10 with finalLogFile := some ("" ++ "\x7b\"constants\":" ++ c ++ ",\n\"events\": [\n") }
      polledJson ("" ++ "\x7b\"constants\":" ++ c ++ ",\n\"events\": [\n") hU rfl rfl
    refine ⟨hS.2, ?_⟩
    rw [hS.1]
    refine congrArg some ?_
    apply String.ext
    simp only [String.data_append, List.append_assoc, List.nil_append, data_empty]
  · rw [InitializeBounded_eq _ _ hB]
    have hS := StopBounded_zero
      { initFileWriter M N with
          finalLogFile := some ("" ++ kInprogressPlaceholder ++ "" ++ "")
          constantsFile := some ("" ++ "\x7b\"constants\":" ++ c ++ ",\n\"events\": [\n") }
      polledJson ("" ++ "\x7b\"constants\":" ++ c ++ ",\n\"events\": [\n") hB rfl rfl rfl
    refine ⟨hS.2, ?_⟩
    rw [hS.1]
    refine congrArg some ?_
    apply String.ext
    simp only [String.data_append, List.append_assoc, List.nil_append, data_empty]

theorem claim_C8_witness :
    (100 : Nat) ≠ kNoLimit ∧
    (Stop (Initialize (initFileWriter 100 3) "") none).wroteEventBytes = false ∧
    (Stop (Initialize (initFileWriter 100 3) "") none).finalLogFile =
      some ("\x7b\"constants\":" ++ ("" ++ (",\n\"events\": [\n" ++ ("]" ++ (polledPart none ++ "\x7d\n"))))) := by
  have h := claim_C8 "" none 100 3 (by decide)
  exact ⟨by decide, h.2.2.1, h.2.2.2⟩

theorem flushOne_null (s : FileWriter) (ev : String) (hu : IsBounded s = false)
    (hf : s.finalLogFile = none) : flushOne s ev = s := by
  obtain ⟨f, cf, cl, ef, hd, sz, n, fn, mx, w⟩ := s
  have hf' : f = none := hf
  subst hf'
  have hb : ¬ (IsBounded (⟨none, cf, cl, ef, hd, sz, n, fn, mx, w⟩ : FileWriter) = true) := by
    rw [hu]
    simp
  rw [flushOne, if_neg hb]
  simp [WriteToFile]

theorem foldl_flushOne_null (s : FileWriter) (hu : IsBounded s = false)
    (hf : s.finalLogFile = none) :
    ∀ l : List String, l.foldl flushOne s = s := by
  intro l
  induction l with
  | nil => rfl
  | cons e rest ih =>
    rw [List.foldl_cons, flushOne_null s e hu hf]
    exact ih

/-- Claim C9: `WriteToFile` on a null handle writes nothing and returns 0
bytes regardless of its data arguments, and no operation aborts on a null
handle: with a null final file, `Flush` still drains the queue (leaving
the writer state unchanged — the events are lost), and `Stop` still runs
to completion with the epilogue writes being no-ops. -/
theorem claim_C9 (d1 d2 d3 : String) (polledJson : Option String)
    (s : FileWriter) (wq : WriteQueue)
    (hu : IsBounded s = false) (hf : s.finalLogFile = none) :
    WriteToFile none d1 d2 d3 = (none, 0) ∧
    (Flush s wq).1 = s ∧
    (Flush s wq).2 = WriteQueue.init wq.memoryMax ∧
    WritePolledDataToFile polledJson none = none ∧
    (Stop s polledJson).finalLogFile = none ∧
    (Stop s polledJson).wroteEventBytes = s.wroteEventBytes := by
  have hb : ¬ (IsBounded s = true) := by
    rw [hu]
    simp
  refine ⟨rfl, foldl_flushOne_null s hu hf wq.queue, rfl,
    writePolled_none polledJson, ?_, ?_⟩
  · simp only [Stop]
    rw [if_neg hb]
    show WritePolledDataToFile polledJson
      (RewindIfWroteEventBytes s.wroteEventBytes s.finalLogFile) = none
    rw [hf]
    exact writePolled_none polledJson
  · simp only [Stop]
    rw [if_neg hb]

theorem claim_C9_witness :
    WriteToFile none "a" "b" "c" = (none, 0) ∧
    (Flush (initFileWriter kNoLimit 10) ⟨["x"], 1, 5⟩).1 = initFileWriter kNoLimit 10 ∧
    (Stop (initFileWriter kNoLimit 10) (some "PD")).finalLogFile = none := by
  have h := claim_C9 "a" "b" "c" (some "PD") (initFileWriter kNoLimit 10)
    ⟨["x"], 1, 5⟩ (by decide) rfl
  exact ⟨h.1, h.2.1, h.2.2.2.2.1⟩

end NetLog
